import Mathlib

/-!
Verification development for the speech-recognition session coordinator
(`CSpxRecognizer`, declared in `source/core/sr/recognizer.h`).

The repository ships only the class declaration (the header); the method
bodies, the `CSpxAsyncOp` primitive (`asyncop.h`) and the named-properties
implementation (`named_properties_impl.h`) are not among the sources.  The
behavioural model below is therefore modelled from the specification
(spec.md): PURPOSE & SCOPE, DATA MODEL (§3), COMPONENT DESIGN (§4),
CONCURRENCY (§5) and ERROR HANDLING (§7).  Every definition carries a doc
comment naming the spec clause it follows.
-/

namespace SpeechSDK

/-- Modelled from the spec: the error taxonomy of §7 (`NotEnabled`,
`OperationInProgress`, `InvalidArgument`, `EngineFailure`, `Cancelled`);
the bodies that raise these errors are missing from the sources. -/
inductive ErrorKind where
  | notEnabled
  | operationInProgress
  | invalidArgument
  | engineFailure
  | cancelledErr
  deriving DecidableEq, Repr

/-- Modelled from the spec: §3 Session `activeMode : enum {Idle, SingleShot,
Continuous, KeywordSpotting}`. -/
inductive Mode where
  | idle
  | singleShot
  | continuous
  | keywordSpotting
  deriving DecidableEq, Repr

/-- Modelled from the spec: §3 Session record — `id` generated at creation
(session ids are modelled as natural numbers drawn from a fresh counter),
`activeMode`, and the optional `keyword` set only in KeywordSpotting mode. -/
structure Session where
  id : Nat
  activeMode : Mode
  keyword : Option String
  deriving DecidableEq, Repr

/-- Modelled from the spec: §3 AsyncOperation state for the operation the
coordinator currently tracks on its default session (the `CSpxAsyncOp`
implementation `asyncop.h` is missing from the sources).  A freshly
scheduled operation is Running; precondition failures are returned as an
already-Failed operation (§7). -/
inductive OpStatus where
  | running
  | completed
  | failed (e : ErrorKind)
  | cancelled
  deriving DecidableEq, Repr

/-- Modelled from the spec: §4.1 / §6 — the event notifications the
coordinator re-broadcasts (`FireSessionStarted/Stopped`,
`FireSpeechStartDetected/EndDetected`, `FireResultEvent`), each carrying a
session identifier. -/
inductive Event where
  | sessionStarted (sid : Nat)
  | sessionStopped (sid : Nat)
  | speechStartDetected (sid : Nat)
  | speechEndDetected (sid : Nat)
  | resultEvent (sid : Nat)
  deriving DecidableEq, Repr

/-- Session identifier carried by an event. -/
def Event.sid : Event → Nat
  | .sessionStarted s => s
  | .sessionStopped s => s
  | .speechStartDetected s => s
  | .speechEndDetected s => s
  | .resultEvent s => s

/-- Modelled from the spec: §3 RecognizerCoordinator state — the atomic
`enabled` flag (`m_fEnabled`), the lazily created default session
(`m_defaultSession`), the local layer of the named-property store
(`ISpxNamedPropertiesImpl`, whose implementation is missing from the
sources), the async operation currently active on the default session, the
trace of events fired so far, and the fresh-id counter for session ids. -/
structure Recognizer where
  enabled : Bool
  defaultSession : Option Session
  localProps : List (String × String)
  currentOp : Option OpStatus
  events : List Event
  nextId : Nat
  deriving DecidableEq, Repr

/-- Modelled from the spec: §3 Lifecycle — the coordinator is constructed
with the enabled flag defaulting to true and with no Session. -/
def initRecognizer : Recognizer :=
  { enabled := true
    defaultSession := none
    localProps := []
    currentOp := none
    events := []
    nextId := 0 }

/-- Modelled from the spec: `EnsureDefaultSession` — §4.1 `GetDefaultSession`
lazily creates the default session if absent; a new session starts Idle with
a fresh id. -/
def ensureDefaultSession (s : Recognizer) : Recognizer :=
  match s.defaultSession with
  | some _ => s
  | none =>
    { s with
      defaultSession := some { id := s.nextId, activeMode := .idle, keyword := none }
      nextId := s.nextId + 1 }

/-- Modelled from the spec: `OnIsEnabledChanged` — §4.1 changing the enabled
flag notifies the default session; §7 `Disable()` never fails and forces all
outstanding operations to a terminal state instead of leaving them pending,
which surfaces as a session-stopped event for the interrupted run (§4.2). -/
def onIsEnabledChanged (s : Recognizer) : Recognizer :=
  if s.enabled then s
  else
    match s.defaultSession with
    | none => s
    | some sess =>
      if sess.activeMode = .idle then s
      else
        { s with
          defaultSession := some { sess with activeMode := .idle, keyword := none }
          currentOp := some .cancelled
          events := s.events ++ [.sessionStopped sess.id] }

/-- Modelled from the spec: `Enable` — §4.1 sets the enabled flag and
notifies the default session. -/
def enable (s : Recognizer) : Recognizer :=
  onIsEnabledChanged { s with enabled := true }

/-- Modelled from the spec: `Disable` — §4.1 clears the enabled flag and
notifies the default session. -/
def disable (s : Recognizer) : Recognizer :=
  onIsEnabledChanged { s with enabled := false }

/-- Modelled from the spec: the shared start path of `RecognizeAsync`,
`StartContinuousRecognitionAsync` and `StartKeywordRecognitionAsync` —
§4.1: ensure a default session exists, fail immediately with `NotEnabled`
if disabled, fail with `OperationInProgress` if another mode is active,
otherwise enter the requested mode, record the Running operation and fire
`SessionStarted` for the new recognition run (§8). -/
def startMode (s : Recognizer) (m : Mode) (kw : Option String) :
    Recognizer × OpStatus :=
  let s1 := ensureDefaultSession s
  if s1.enabled = false then (s1, .failed .notEnabled)
  else
    match s1.defaultSession with
    | none => (s1, .failed .notEnabled)
    | some sess =>
      if sess.activeMode = .idle then
        ({ s1 with
           defaultSession := some { sess with activeMode := m, keyword := kw }
           currentOp := some .running
           events := s1.events ++ [.sessionStarted sess.id] }, .running)
      else (s1, .failed .operationInProgress)

/-- Modelled from the spec: `RecognizeAsync` — §4.1 schedules one
single-shot recognition. -/
def recognizeAsync (s : Recognizer) : Recognizer × OpStatus :=
  startMode s .singleShot none

/-- Modelled from the spec: `StartContinuousRecognitionAsync` — §4.1. -/
def startContinuousRecognitionAsync (s : Recognizer) : Recognizer × OpStatus :=
  startMode s .continuous none

/-- Modelled from the spec: `StartKeywordRecognitionAsync` — §4.1: an empty
or null keyword fails with `InvalidArgument` before any session side
effect; otherwise the keyword-spotting mode is started like the others. -/
def startKeywordRecognitionAsync (s : Recognizer) (kw : Option String) :
    Recognizer × OpStatus :=
  match kw with
  | none => (s, .failed .invalidArgument)
  | some k =>
    if k = "" then (s, .failed .invalidArgument)
    else startMode s .keywordSpotting (some k)

/-- Modelled from the spec: the shared stop path of
`StopContinuousRecognitionAsync` and `StopKeywordRecognitionAsync` —
§4.1/§4.2: stopping is a no-op success when the corresponding mode is not
running; otherwise the session returns to Idle, the running operation
reaches its terminal state and `SessionStopped` fires. -/
def stopMode (s : Recognizer) (m : Mode) : Recognizer × OpStatus :=
  match s.defaultSession with
  | none => (s, .completed)
  | some sess =>
    if sess.activeMode = m then
      ({ s with
         defaultSession := some { sess with activeMode := .idle, keyword := none }
         currentOp := some .completed
         events := s.events ++ [.sessionStopped sess.id] }, .completed)
    else (s, .completed)

/-- Modelled from the spec: `StopContinuousRecognitionAsync` — §4.1. -/
def stopContinuousRecognitionAsync (s : Recognizer) : Recognizer × OpStatus :=
  stopMode s .continuous

/-- Modelled from the spec: `StopKeywordRecognitionAsync` — §4.1. -/
def stopKeywordRecognitionAsync (s : Recognizer) : Recognizer × OpStatus :=
  stopMode s .keywordSpotting

/-- Modelled from the spec: `Term` / `TermDefaultSession` — §4.1 `Term()` is
idempotent and releases the default session; §5 it forces cancellation of
any outstanding operation on the default session before releasing it. -/
def term (s : Recognizer) : Recognizer :=
  match s.defaultSession with
  | none => s
  | some _ =>
    { s with
      defaultSession := none
      currentOp :=
        match s.currentOp with
        | some .running => some .cancelled
        | o => o }

/-- Modelled from the spec: `SetStringValue` — §4.4 writes only to the local
layer, never to the parent; overwrite-only (the new binding shadows any
older local binding). -/
def setStringValue (s : Recognizer) (k v : String) : Recognizer :=
  { s with localProps := (k, v) :: s.localProps }

/-- First binding of a key in the local association list. -/
def lookupProp : List (String × String) → String → Option String
  | [], _ => none
  | (k, v) :: rest, key => if k = key then some v else lookupProp rest key

/-- Modelled from the spec: `GetStringValue` — §4.4 checks local entries
first, then delegates to the parent store (obtained from the site via
`GetParentProperties`, modelled as a lookup-only function), else returns the
default. -/
def getStringValue (s : Recognizer) (parent : String → Option String)
    (k : String) : Option String :=
  match lookupProp s.localProps k with
  | some v => some v
  | none => parent k

/-- Modelled from the spec: §4.2/§6 — while a recognition run is active the
engine asynchronously produces speech/result notifications, which the
session fires and the coordinator re-broadcasts for its session id.  When
no run is active nothing is emitted. -/
def engineEmit (s : Recognizer) (mk : Nat → Event) : Recognizer :=
  match s.defaultSession with
  | none => s
  | some sess =>
    if sess.activeMode = .idle then s
    else { s with events := s.events ++ [mk sess.id] }

/-- Modelled from the spec: §4.2 — a single-shot run completes: the session
returns to Idle, the operation reaches Completed and `SessionStopped`
fires. -/
def engineComplete (s : Recognizer) : Recognizer :=
  match s.defaultSession with
  | none => s
  | some sess =>
    if sess.activeMode = .singleShot then
      { s with
        defaultSession := some { sess with activeMode := .idle, keyword := none }
        currentOp := some .completed
        events := s.events ++ [.sessionStopped sess.id] }
    else s

/-- Modelled from the spec: §4.2 — errors from the underlying engine
transition back to Idle and surface as a Failed operation plus a
session-stopped event. -/
def engineFail (s : Recognizer) : Recognizer :=
  match s.defaultSession with
  | none => s
  | some sess =>
    if sess.activeMode = .idle then s
    else
      { s with
        defaultSession := some { sess with activeMode := .idle, keyword := none }
        currentOp := some (.failed .engineFailure)
        events := s.events ++ [.sessionStopped sess.id] }

/-- One externally observable action on the coordinator: an API call or an
asynchronous engine step. -/
inductive Action where
  | recognize
  | startContinuous
  | stopContinuous
  | startKeyword (kw : Option String)
  | stopKeyword
  | enableAct
  | disableAct
  | termAct
  | setProp (k v : String)
  | engineSpeechStart
  | engineSpeechEnd
  | engineResult
  | engineDone
  | engineError
  deriving DecidableEq, Repr

/-- State transition performed by one action (the state component of the
API functions; the returned operation handle is dropped here). -/
def step (s : Recognizer) : Action → Recognizer
  | .recognize => (recognizeAsync s).1
  | .startContinuous => (startContinuousRecognitionAsync s).1
  | .stopContinuous => (stopContinuousRecognitionAsync s).1
  | .startKeyword kw => (startKeywordRecognitionAsync s kw).1
  | .stopKeyword => (stopKeywordRecognitionAsync s).1
  | .enableAct => enable s
  | .disableAct => disable s
  | .termAct => term s
  | .setProp k v => setStringValue s k v
  | .engineSpeechStart => engineEmit s Event.speechStartDetected
  | .engineSpeechEnd => engineEmit s Event.speechEndDetected
  | .engineResult => engineEmit s Event.resultEvent
  | .engineDone => engineComplete s
  | .engineError => engineFail s

/-- Runs a list of actions from a state. -/
def runActs (s : Recognizer) : List Action → Recognizer
  | [] => s
  | a :: rest => runActs (step s a) rest

/-- States the coordinator can actually be in, starting from construction. -/
def Reachable (s : Recognizer) : Prop :=
  ∃ acts, runActs initRecognizer acts = s

/-- Events of the trace belonging to one session id. -/
def projectSid (es : List Event) (k : Nat) : List Event :=
  es.filter (fun e => e.sid = k)

/-- Position of the per-session event automaton: between recognition runs
(`outside`) or inside a run opened by `SessionStarted` (`inside`). -/
inductive AState where
  | outside
  | inside
  deriving DecidableEq, Repr

/-- One step of the per-session causal-order automaton: a run opens with
`SessionStarted`, may contain speech/result events, and closes with
`SessionStopped`; anything else is out of order (`none`). -/
def autoStep : AState → Event → Option AState
  | .outside, .sessionStarted _ => some .inside
  | .outside, _ => none
  | .inside, .sessionStarted _ => none
  | .inside, .sessionStopped _ => some .outside
  | .inside, _ => some .inside

/-- Runs the causal-order automaton over a trace. -/
def autoRun : Option AState → List Event → Option AState
  | o, [] => o
  | none, _ :: _ => none
  | some st, e :: rest => autoRun (autoStep st e) rest

/-- A per-session trace is causally ordered when the automaton accepts it
starting outside any run. -/
def traceOK (es : List Event) : Bool :=
  (autoRun (some .outside) es).isSome

/-- Whether a recognition run is currently open for session id `k`. -/
def openRun (s : Recognizer) (k : Nat) : Bool :=
  match s.defaultSession with
  | none => false
  | some sess => sess.id = k && !(sess.activeMode = .idle)

/-- Modelled from the spec: §3/§4.3 AsyncOperation state space with the
result value (`CSpxAsyncOp` itself is missing from the sources). -/
inductive AsyncState (T : Type) where
  | pending
  | running
  | completed (v : T)
  | failed (e : ErrorKind)
  | cancelled

/-- Terminal states of an AsyncOperation. -/
def AsyncState.isTerminal {T : Type} : AsyncState T → Bool
  | .pending => false
  | .running => false
  | .completed _ => true
  | .failed _ => true
  | .cancelled => true

/-- Modelled from the spec: §4.3 transitions of an AsyncOperation — work
starts (Pending→Running), completes or fails from Running, cancellation
before work starts goes directly to Cancelled, and mid-flight cancellation
is honoured from Running. -/
inductive AsyncStep {T : Type} : AsyncState T → AsyncState T → Prop
  | start : AsyncStep .pending .running
  | complete (v : T) : AsyncStep .running (.completed v)
  | fail (e : ErrorKind) : AsyncStep .running (.failed e)
  | cancelPending : AsyncStep .pending .cancelled
  | cancelRunning : AsyncStep .running .cancelled

/-- Invariant of the coordinator: session ids are below the fresh counter,
every fired event names a session id below the fresh counter, a disabled
coordinator has no active mode, an active mode means the tracked operation
is Running, every per-session trace is accepted by the causal-order
automaton, and the live session's trace position matches its mode. -/
def GInv (s : Recognizer) : Prop :=
  (∀ sess, s.defaultSession = some sess → sess.id < s.nextId) ∧
  (∀ e ∈ s.events, e.sid < s.nextId) ∧
  (s.enabled = false → ∀ sess, s.defaultSession = some sess → sess.activeMode = .idle) ∧
  (∀ sess, s.defaultSession = some sess → sess.activeMode ≠ .idle →
    s.currentOp = some .running) ∧
  (∀ k, (autoRun (some .outside) (projectSid s.events k)).isSome = true) ∧
  (∀ sess, s.defaultSession = some sess →
    autoRun (some .outside) (projectSid s.events sess.id) =
      some (if sess.activeMode = .idle then .outside else .inside))

/-- A session id no request can fire events for any more: it is in the past
of the fresh counter and is not the live session's id. -/
def DeadId (s : Recognizer) (k : Nat) : Prop :=
  k < s.nextId ∧ ∀ sess, s.defaultSession = some sess → sess.id ≠ k

/-- A Running tracked operation always belongs to an active run on the
default session. -/
def OpInv (s : Recognizer) : Prop :=
  s.currentOp = some .running →
    ∃ sess, s.defaultSession = some sess ∧ sess.activeMode ≠ .idle

/-- Applies a sequence of Enable (`true`) / Disable (`false`) calls. -/
def applyED (s : Recognizer) (calls : List Bool) : Recognizer :=
  calls.foldl (fun t b => if b then enable t else disable t) s

theorem sid_sessionStarted (k : Nat) : (Event.sessionStarted k).sid = k := rfl

theorem sid_sessionStopped (k : Nat) : (Event.sessionStopped k).sid = k := rfl

theorem autoRun_none (es : List Event) : autoRun none es = none := by
  cases es <;> rfl

theorem autoRun_append (o : Option AState) (es ds : List Event) :
    autoRun o (es ++ ds) = autoRun (autoRun o es) ds := by
  induction es generalizing o with
  | nil => cases o <;> rfl
  | cons e es ih =>
    cases o with
    | none => simp [autoRun_none]
    | some st => simpa [autoRun] using ih (autoStep st e)

theorem autoRun_append_single (o : Option AState) (es : List Event) (e : Event) :
    autoRun o (es ++ [e]) = (autoRun o es).bind (fun st => autoStep st e) := by
  rw [autoRun_append]
  cases autoRun o es with
  | none => rfl
  | some st => cases h : autoStep st e <;> simp [autoRun, h]

theorem projectSid_append (es ds : List Event) (k : Nat) :
    projectSid (es ++ ds) k = projectSid es k ++ projectSid ds k := by
  simp [projectSid]

theorem projectSid_single (e : Event) (k : Nat) :
    projectSid [e] k = if e.sid = k then [e] else [] := by
  by_cases h : e.sid = k <;> simp [projectSid, h]

theorem projectSid_append_event (es : List Event) (e : Event) (k : Nat) :
    projectSid (es ++ [e]) k =
      projectSid es k ++ (if e.sid = k then [e] else []) := by
  rw [projectSid_append, projectSid_single]

theorem projectSid_eq_nil (es : List Event) (k : Nat)
    (h : ∀ e ∈ es, e.sid ≠ k) : projectSid es k = [] := by
  simp only [projectSid, List.filter_eq_nil_iff]
  intro e he
  simpa using h e he

theorem ensure_of_some {s : Recognizer} {sess : Session}
    (h : s.defaultSession = some sess) : ensureDefaultSession s = s := by
  simp [ensureDefaultSession, h]

theorem ensure_of_none {s : Recognizer} (h : s.defaultSession = none) :
    ensureDefaultSession s =
      { s with
        defaultSession := some { id := s.nextId, activeMode := .idle, keyword := none }
        nextId := s.nextId + 1 } := by
  simp [ensureDefaultSession, h]

theorem ensure_enabled (s : Recognizer) :
    (ensureDefaultSession s).enabled = s.enabled := by
  cases h : s.defaultSession with
  | none => rw [ensure_of_none h]
  | some sess => rw [ensure_of_some h]

theorem ensure_events (s : Recognizer) :
    (ensureDefaultSession s).events = s.events := by
  cases h : s.defaultSession with
  | none => rw [ensure_of_none h]
  | some sess => rw [ensure_of_some h]

theorem ensure_currentOp (s : Recognizer) :
    (ensureDefaultSession s).currentOp = s.currentOp := by
  cases h : s.defaultSession with
  | none => rw [ensure_of_none h]
  | some sess => rw [ensure_of_some h]

theorem ensure_localProps (s : Recognizer) :
    (ensureDefaultSession s).localProps = s.localProps := by
  cases h : s.defaultSession with
  | none => rw [ensure_of_none h]
  | some sess => rw [ensure_of_some h]

theorem onEC_of_enabled {s : Recognizer} (h : s.enabled = true) :
    onIsEnabledChanged s = s := by
  simp [onIsEnabledChanged, h]

theorem onEC_of_none {s : Recognizer} (hdis : s.enabled = false)
    (h : s.defaultSession = none) : onIsEnabledChanged s = s := by
  simp [onIsEnabledChanged, hdis, h]

theorem onEC_of_idle {s : Recognizer} {sess : Session} (hdis : s.enabled = false)
    (h : s.defaultSession = some sess) (hidle : sess.activeMode = .idle) :
    onIsEnabledChanged s = s := by
  simp [onIsEnabledChanged, hdis, h, hidle]

theorem onEC_of_active {s : Recognizer} {sess : Session} (hdis : s.enabled = false)
    (h : s.defaultSession = some sess) (hactive : sess.activeMode ≠ .idle) :
    onIsEnabledChanged s =
      { s with
        defaultSession := some { sess with activeMode := .idle, keyword := none }
        currentOp := some .cancelled
        events := s.events ++ [.sessionStopped sess.id] } := by
  simp [onIsEnabledChanged, hdis, h, hactive]

theorem enable_eq (s : Recognizer) : enable s = { s with enabled := true } := by
  unfold enable
  exact onEC_of_enabled rfl

theorem startMode_disabled {s : Recognizer} {m : Mode} {kw : Option String}
    (h : (ensureDefaultSession s).enabled = false) :
    startMode s m kw = (ensureDefaultSession s, .failed .notEnabled) := by
  simp [startMode, h]

theorem startMode_busy {s : Recognizer} {m : Mode} {kw : Option String}
    {sess : Session} (hen : (ensureDefaultSession s).enabled = true)
    (hsess : (ensureDefaultSession s).defaultSession = some sess)
    (hactive : sess.activeMode ≠ .idle) :
    startMode s m kw = (ensureDefaultSession s, .failed .operationInProgress) := by
  simp [startMode, hen, hsess, hactive]

theorem startMode_go {s : Recognizer} {m : Mode} {kw : Option String}
    {sess : Session} (hen : (ensureDefaultSession s).enabled = true)
    (hsess : (ensureDefaultSession s).defaultSession = some sess)
    (hidle : sess.activeMode = .idle) :
    startMode s m kw =
      ({ ensureDefaultSession s with
         defaultSession := some { sess with activeMode := m, keyword := kw }
         currentOp := some .running
         events := (ensureDefaultSession s).events ++ [.sessionStarted sess.id] },
       .running) := by
  simp [startMode, hen, hsess, hidle]

theorem stopMode_none {s : Recognizer} {m : Mode} (h : s.defaultSession = none) :
    stopMode s m = (s, .completed) := by
  simp [stopMode, h]

theorem stopMode_noop {s : Recognizer} {m : Mode} {sess : Session}
    (hsess : s.defaultSession = some sess) (hne : sess.activeMode ≠ m) :
    stopMode s m = (s, .completed) := by
  simp [stopMode, hsess, hne]

theorem stopMode_go {s : Recognizer} {m : Mode} {sess : Session}
    (hsess : s.defaultSession = some sess) (heq : sess.activeMode = m) :
    stopMode s m =
      ({ s with
         defaultSession := some { sess with activeMode := .idle, keyword := none }
         currentOp := some .completed
         events := s.events ++ [.sessionStopped sess.id] }, .completed) := by
  simp [stopMode, hsess, heq]

theorem term_of_none {s : Recognizer} (h : s.defaultSession = none) :
    term s = s := by
  simp [term, h]

theorem term_of_some {s : Recognizer} {sess : Session}
    (h : s.defaultSession = some sess) :
    term s =
      { s with
        defaultSession := none
        currentOp :=
          match s.currentOp with
          | some .running => some .cancelled
          | o => o } := by
  simp [term, h]

theorem term_defaultSession (s : Recognizer) : (term s).defaultSession = none := by
  cases h : s.defaultSession with
  | none => rw [term_of_none h, h]
  | some sess => rw [term_of_some h]

theorem term_events (s : Recognizer) : (term s).events = s.events := by
  cases h : s.defaultSession with
  | none => rw [term_of_none h]
  | some sess => rw [term_of_some h]

theorem term_nextId (s : Recognizer) : (term s).nextId = s.nextId := by
  cases h : s.defaultSession with
  | none => rw [term_of_none h]
  | some sess => rw [term_of_some h]

theorem term_idem (s : Recognizer) : term (term s) = term s :=
  term_of_none (term_defaultSession s)

theorem engineEmit_of_none {s : Recognizer} {mk : Nat → Event}
    (h : s.defaultSession = none) : engineEmit s mk = s := by
  simp [engineEmit, h]

theorem engineEmit_of_idle {s : Recognizer} {mk : Nat → Event} {sess : Session}
    (h : s.defaultSession = some sess) (hidle : sess.activeMode = .idle) :
    engineEmit s mk = s := by
  simp [engineEmit, h, hidle]

theorem engineEmit_of_active {s : Recognizer} {mk : Nat → Event} {sess : Session}
    (h : s.defaultSession = some sess) (hactive : sess.activeMode ≠ .idle) :
    engineEmit s mk = { s with events := s.events ++ [mk sess.id] } := by
  simp [engineEmit, h, hactive]

theorem engineComplete_of_single {s : Recognizer} {sess : Session}
    (h : s.defaultSession = some sess) (hm : sess.activeMode = .singleShot) :
    engineComplete s =
      { s with
        defaultSession := some { sess with activeMode := .idle, keyword := none }
        currentOp := some .completed
        events := s.events ++ [.sessionStopped sess.id] } := by
  simp [engineComplete, h, hm]

theorem engineFail_of_active {s : Recognizer} {sess : Session}
    (h : s.defaultSession = some sess) (hactive : sess.activeMode ≠ .idle) :
    engineFail s =
      { s with
        defaultSession := some { sess with activeMode := .idle, keyword := none }
        currentOp := some (.failed .engineFailure)
        events := s.events ++ [.sessionStopped sess.id] } := by
  simp [engineFail, h, hactive]

theorem engineComplete_of_none {s : Recognizer} (h : s.defaultSession = none) :
    engineComplete s = s := by
  simp [engineComplete, h]

theorem engineComplete_of_other {s : Recognizer} {sess : Session}
    (h : s.defaultSession = some sess) (hne : sess.activeMode ≠ .singleShot) :
    engineComplete s = s := by
  simp [engineComplete, h, hne]

theorem engineFail_of_none {s : Recognizer} (h : s.defaultSession = none) :
    engineFail s = s := by
  simp [engineFail, h]

theorem engineFail_of_idle {s : Recognizer} {sess : Session}
    (h : s.defaultSession = some sess) (hidle : sess.activeMode = .idle) :
    engineFail s = s := by
  simp [engineFail, h, hidle]

theorem disable_of_inactive {s : Recognizer}
    (h : ∀ sess, s.defaultSession = some sess → sess.activeMode = .idle) :
    disable s = { s with enabled := false } := by
  unfold disable
  cases hd : s.defaultSession with
  | none => exact onEC_of_none rfl rfl
  | some sess => exact onEC_of_idle rfl rfl (h sess hd)

theorem disable_of_active {s : Recognizer} {sess : Session}
    (hsess : s.defaultSession = some sess) (hactive : sess.activeMode ≠ .idle) :
    disable s =
      { s with
        enabled := false
        defaultSession := some { sess with activeMode := .idle, keyword := none }
        currentOp := some .cancelled
        events := s.events ++ [.sessionStopped sess.id] } := by
  unfold disable
  exact onEC_of_active rfl hsess hactive

theorem ensure_session (s : Recognizer) :
    ∃ sess, (ensureDefaultSession s).defaultSession = some sess := by
  cases hd : s.defaultSession with
  | none => exact ⟨_, by rw [ensure_of_none hd]⟩
  | some sess => exact ⟨sess, by rw [ensure_of_some hd, hd]⟩

theorem ensure_nextId_ge (s : Recognizer) :
    s.nextId ≤ (ensureDefaultSession s).nextId := by
  cases hd : s.defaultSession with
  | none => rw [ensure_of_none hd]; exact Nat.le_succ _
  | some sess => rw [ensure_of_some hd]

theorem runActs_pres (P : Recognizer → Prop)
    (hstep : ∀ s a, P s → P (step s a)) :
    ∀ acts s, P s → P (runActs s acts) := by
  intro acts
  induction acts with
  | nil => intro s hs; exact hs
  | cons a rest ih => intro s hs; exact ih (step s a) (hstep s a hs)

theorem ginv_init : GInv initRecognizer := by
  refine ⟨?_, ?_, ?_, ?_, ?_, ?_⟩
  · intro sess hsess; simp [initRecognizer] at hsess
  · intro e he; simp [initRecognizer] at he
  · intro hdis; simp [initRecognizer] at hdis
  · intro sess hsess; simp [initRecognizer] at hsess
  · intro k; rfl
  · intro sess hsess; simp [initRecognizer] at hsess

theorem ginv_ensure {s : Recognizer} (h : GInv s) : GInv (ensureDefaultSession s) := by
  obtain ⟨h1, h2, h3, h4, h5, h6⟩ := h
  cases hd : s.defaultSession with
  | some sess => rw [ensure_of_some hd]; exact ⟨h1, h2, h3, h4, h5, h6⟩
  | none =>
    rw [ensure_of_none hd]
    refine ⟨?_, ?_, ?_, ?_, ?_, ?_⟩
    · intro sess hsess
      dsimp at hsess ⊢
      cases hsess
      exact Nat.lt_succ_self _
    · intro e he
      dsimp at he ⊢
      exact Nat.lt_succ_of_lt (h2 e he)
    · intro _ sess hsess
      dsimp at hsess
      cases hsess
      rfl
    · intro sess hsess hne
      dsimp at hsess
      cases hsess
      exact absurd rfl hne
    · intro k; exact h5 k
    · intro sess hsess
      dsimp at hsess ⊢
      cases hsess
      have hnil : projectSid s.events s.nextId = [] :=
        projectSid_eq_nil _ _ (fun e he => Nat.ne_of_lt (h2 e he))
      rw [hnil]
      rfl

theorem ginv_start {s : Recognizer} {sess : Session} {m : Mode} {kw : Option String}
    (h : GInv s) (hen : s.enabled = true) (hsess : s.defaultSession = some sess)
    (hidle : sess.activeMode = .idle) (hm : m ≠ .idle) :
    GInv
      { s with
        defaultSession := some { sess with activeMode := m, keyword := kw }
        currentOp := some .running
        events := s.events ++ [.sessionStarted sess.id] } := by
  obtain ⟨h1, h2, h3, h4, h5, h6⟩ := h
  have hopen : autoRun (some .outside) (projectSid s.events sess.id) = some .outside := by
    have := h6 sess hsess
    rwa [if_pos hidle] at this
  refine ⟨?_, ?_, ?_, ?_, ?_, ?_⟩
  · intro sess' hsess'
    dsimp at hsess' ⊢
    cases hsess'
    exact h1 sess hsess
  · intro e he
    dsimp at he ⊢
    rcases List.mem_append.1 he with hold | hnew
    · exact h2 e hold
    · rcases List.mem_singleton.1 hnew with rfl
      exact h1 sess hsess
  · intro hdis
    dsimp at hdis
    rw [hen] at hdis
    cases hdis
  · intro sess' _ _
    rfl
  · intro k
    dsimp
    rw [projectSid_append_event]
    by_cases hk : (Event.sessionStarted sess.id).sid = k
    · rw [if_pos hk, autoRun_append_single]
      rw [sid_sessionStarted] at hk
      subst hk
      rw [hopen]
      rfl
    · rw [if_neg hk, List.append_nil]
      exact h5 k
  · intro sess' hsess'
    dsimp at hsess' ⊢
    cases hsess'
    rw [if_neg hm, projectSid_append_event, if_pos (sid_sessionStarted sess.id),
      autoRun_append_single, hopen]
    rfl

theorem ginv_close {s : Recognizer} {sess : Session} {b : Bool} {c : OpStatus}
    (h : GInv s) (hsess : s.defaultSession = some sess)
    (hactive : sess.activeMode ≠ .idle) :
    GInv
      { s with
        enabled := b
        defaultSession := some { sess with activeMode := .idle, keyword := none }
        currentOp := some c
        events := s.events ++ [.sessionStopped sess.id] } := by
  obtain ⟨h1, h2, h3, h4, h5, h6⟩ := h
  have hopen : autoRun (some .outside) (projectSid s.events sess.id) = some .inside := by
    have := h6 sess hsess
    rwa [if_neg hactive] at this
  refine ⟨?_, ?_, ?_, ?_, ?_, ?_⟩
  · intro sess' hsess'
    dsimp at hsess' ⊢
    cases hsess'
    exact h1 sess hsess
  · intro e he
    dsimp at he ⊢
    rcases List.mem_append.1 he with hold | hnew
    · exact h2 e hold
    · rcases List.mem_singleton.1 hnew with rfl
      exact h1 sess hsess
  · intro _ sess' hsess'
    dsimp at hsess'
    cases hsess'
    rfl
  · intro sess' hsess' hne
    dsimp at hsess'
    cases hsess'
    exact absurd rfl hne
  · intro k
    dsimp
    rw [projectSid_append_event]
    by_cases hk : (Event.sessionStopped sess.id).sid = k
    · rw [if_pos hk, autoRun_append_single]
      rw [sid_sessionStopped] at hk
      subst hk
      rw [hopen]
      rfl
    · rw [if_neg hk, List.append_nil]
      exact h5 k
  · intro sess' hsess'
    dsimp at hsess' ⊢
    cases hsess'
    rw [if_pos rfl, projectSid_append_event, if_pos (sid_sessionStopped sess.id),
      autoRun_append_single, hopen]
    rfl

theorem ginv_emit {s : Recognizer} {mk : Nat → Event} (h : GInv s)
    (hsid : ∀ k, (mk k).sid = k)
    (hin : ∀ k, autoStep .inside (mk k) = some .inside) :
    GInv (engineEmit s mk) := by
  obtain ⟨h1, h2, h3, h4, h5, h6⟩ := h
  cases hd : s.defaultSession with
  | none => rw [engineEmit_of_none hd]; exact ⟨h1, h2, h3, h4, h5, h6⟩
  | some sess =>
    by_cases hidle : sess.activeMode = .idle
    · rw [engineEmit_of_idle hd hidle]; exact ⟨h1, h2, h3, h4, h5, h6⟩
    · rw [engineEmit_of_active hd hidle]
      have hopen : autoRun (some .outside) (projectSid s.events sess.id) = some .inside := by
        have := h6 sess hd
        rwa [if_neg hidle] at this
      refine ⟨?_, ?_, ?_, ?_, ?_, ?_⟩
      · intro sess' hsess'
        dsimp at hsess' ⊢
        exact h1 sess' hsess'
      · intro e he
        dsimp at he ⊢
        rcases List.mem_append.1 he with hold | hnew
        · exact h2 e hold
        · rcases List.mem_singleton.1 hnew with rfl
          rw [hsid]
          exact h1 sess hd
      · intro hdis sess' hsess'
        dsimp at hdis hsess'
        exact h3 hdis sess' hsess'
      · intro sess' hsess' hne
        dsimp at hsess' ⊢
        exact h4 sess' hsess' hne
      · intro k
        dsimp
        rw [projectSid_append_event]
        by_cases hk : (mk sess.id).sid = k
        · rw [if_pos hk, autoRun_append_single]
          rw [hsid] at hk
          subst hk
          rw [hopen]
          simp [hin]
        · rw [if_neg hk, List.append_nil]
          exact h5 k
      · intro sess' hsess'
        dsimp at hsess' ⊢
        rw [hd] at hsess'
        cases hsess'
        rw [if_neg hidle, projectSid_append_event, if_pos (hsid sess.id),
          autoRun_append_single, hopen]
        simpa using hin sess.id

theorem ginv_term {s : Recognizer} (h : GInv s) : GInv (term s) := by
  obtain ⟨h1, h2, h3, h4, h5, h6⟩ := h
  cases hd : s.defaultSession with
  | none => rw [term_of_none hd]; exact ⟨h1, h2, h3, h4, h5, h6⟩
  | some sess =>
    rw [term_of_some hd]
    refine ⟨?_, ?_, ?_, ?_, ?_, ?_⟩
    · intro sess' hsess'
      exact Option.noConfusion hsess'
    · intro e he
      dsimp at he ⊢
      exact h2 e he
    · intro _ sess' hsess'
      exact Option.noConfusion hsess'
    · intro sess' hsess'
      exact Option.noConfusion hsess'
    · intro k
      dsimp
      exact h5 k
    · intro sess' hsess'
      exact Option.noConfusion hsess'

theorem ginv_startMode {s : Recognizer} {m : Mode} {kw : Option String}
    (h : GInv s) (hm : m ≠ .idle) : GInv (startMode s m kw).1 := by
  by_cases hen : (ensureDefaultSession s).enabled = false
  · rw [startMode_disabled hen]
    exact ginv_ensure h
  · have hen' : (ensureDefaultSession s).enabled = true := by
      cases hE : (ensureDefaultSession s).enabled
      · exact absurd hE hen
      · rfl
    obtain ⟨sess, hsess⟩ := ensure_session s
    by_cases hidle : sess.activeMode = .idle
    · rw [startMode_go hen' hsess hidle]
      exact ginv_start (ginv_ensure h) hen' hsess hidle hm
    · rw [startMode_busy hen' hsess hidle]
      exact ginv_ensure h

theorem ginv_stopMode {s : Recognizer} {m : Mode} (h : GInv s) (hm : m ≠ .idle) :
    GInv (stopMode s m).1 := by
  cases hd : s.defaultSession with
  | none => rw [stopMode_none hd]; exact h
  | some sess =>
    by_cases heq : sess.activeMode = m
    · rw [stopMode_go hd heq]
      exact ginv_close h hd (by rw [heq]; exact hm)
    · rw [stopMode_noop hd heq]; exact h

theorem ginv_enabled_set {s : Recognizer} (h : GInv s) (b : Bool)
    (hb : b = false → ∀ sess, s.defaultSession = some sess → sess.activeMode = .idle) :
    GInv { s with enabled := b } := by
  obtain ⟨h1, h2, h3, h4, h5, h6⟩ := h
  exact ⟨h1, h2, fun hdis => hb hdis, h4, h5, h6⟩

theorem ginv_step {s : Recognizer} (h : GInv s) (a : Action) : GInv (step s a) := by
  cases a with
  | recognize => exact ginv_startMode h (by decide)
  | startContinuous => exact ginv_startMode h (by decide)
  | stopContinuous => exact ginv_stopMode h (by decide)
  | startKeyword kw =>
    cases kw with
    | none => exact h
    | some k =>
      by_cases hk : k = ""
      · have hκ : startKeywordRecognitionAsync s (some k) = (s, .failed .invalidArgument) := by
          simp [startKeywordRecognitionAsync, hk]
        show GInv (startKeywordRecognitionAsync s (some k)).1
        rw [hκ]
        exact h
      · have hκ : startKeywordRecognitionAsync s (some k) =
            startMode s .keywordSpotting (some k) := by
          simp [startKeywordRecognitionAsync, hk]
        show GInv (startKeywordRecognitionAsync s (some k)).1
        rw [hκ]
        exact ginv_startMode h (by decide)
  | stopKeyword => exact ginv_stopMode h (by decide)
  | enableAct =>
    show GInv (enable s)
    rw [enable_eq]
    exact ginv_enabled_set h true (fun hdis => Bool.noConfusion hdis)
  | disableAct =>
    show GInv (disable s)
    cases hd : s.defaultSession with
    | none =>
      rw [disable_of_inactive (fun t ht => Option.noConfusion (hd ▸ ht))]
      exact ginv_enabled_set h false (fun _ t ht => Option.noConfusion (hd ▸ ht))
    | some sess =>
      by_cases hidle : sess.activeMode = .idle
      · have hall : ∀ t, s.defaultSession = some t → t.activeMode = .idle := by
          intro t ht
          rw [hd] at ht
          cases ht
          exact hidle
        rw [disable_of_inactive hall]
        exact ginv_enabled_set h false (fun _ => hall)
      · rw [disable_of_active hd hidle]
        exact ginv_close h hd hidle
  | termAct => exact ginv_term h
  | setProp k v => exact h
  | engineSpeechStart => exact ginv_emit h (fun _ => rfl) (fun _ => rfl)
  | engineSpeechEnd => exact ginv_emit h (fun _ => rfl) (fun _ => rfl)
  | engineResult => exact ginv_emit h (fun _ => rfl) (fun _ => rfl)
  | engineDone =>
    show GInv (engineComplete s)
    cases hd : s.defaultSession with
    | none => rw [engineComplete_of_none hd]; exact h
    | some sess =>
      by_cases hm : sess.activeMode = .singleShot
      · rw [engineComplete_of_single hd hm]
        exact ginv_close h hd (by rw [hm]; decide)
      · rw [engineComplete_of_other hd hm]; exact h
  | engineError =>
    show GInv (engineFail s)
    cases hd : s.defaultSession with
    | none => rw [engineFail_of_none hd]; exact h
    | some sess =>
      by_cases hidle : sess.activeMode = .idle
      · rw [engineFail_of_idle hd hidle]; exact h
      · rw [engineFail_of_active hd hidle]
        exact ginv_close h hd hidle

theorem reachable_ginv {s : Recognizer} (hs : Reachable s) : GInv s := by
  obtain ⟨acts, hacts⟩ := hs
  rw [← hacts]
  exact runActs_pres GInv (fun t a ht => ginv_step ht a) acts initRecognizer ginv_init

theorem opinv_init : OpInv initRecognizer := by
  intro habs
  simp [initRecognizer] at habs

theorem opinv_ensure {s : Recognizer} (h : OpInv s) : OpInv (ensureDefaultSession s) := by
  intro hop
  rw [ensure_currentOp] at hop
  obtain ⟨sess, hsess, hact⟩ := h hop
  rw [ensure_of_some hsess]
  exact ⟨sess, hsess, hact⟩

theorem opinv_startMode {s : Recognizer} {m : Mode} {kw : Option String}
    (h : OpInv s) (hm : m ≠ .idle) : OpInv (startMode s m kw).1 := by
  by_cases hen : (ensureDefaultSession s).enabled = false
  · rw [startMode_disabled hen]
    exact opinv_ensure h
  · have hen' : (ensureDefaultSession s).enabled = true := by
      cases hE : (ensureDefaultSession s).enabled
      · exact absurd hE hen
      · rfl
    obtain ⟨sess, hsess⟩ := ensure_session s
    by_cases hidle : sess.activeMode = .idle
    · rw [startMode_go hen' hsess hidle]
      intro _
      exact ⟨{ sess with activeMode := m, keyword := kw }, rfl, hm⟩
    · rw [startMode_busy hen' hsess hidle]
      exact opinv_ensure h

theorem opinv_stopMode {s : Recognizer} {m : Mode} (h : OpInv s) :
    OpInv (stopMode s m).1 := by
  cases hd : s.defaultSession with
  | none => rw [stopMode_none hd]; exact h
  | some sess =>
    by_cases heq : sess.activeMode = m
    · rw [stopMode_go hd heq]
      intro habs
      dsimp at habs
      simp at habs
    · rw [stopMode_noop hd heq]; exact h

theorem opinv_step {s : Recognizer} (h : OpInv s) (a : Action) : OpInv (step s a) := by
  cases a with
  | recognize => exact opinv_startMode h (by decide)
  | startContinuous => exact opinv_startMode h (by decide)
  | stopContinuous => exact opinv_stopMode h
  | startKeyword kw =>
    cases kw with
    | none => exact h
    | some k =>
      by_cases hk : k = ""
      · have hκ : startKeywordRecognitionAsync s (some k) = (s, .failed .invalidArgument) := by
          simp [startKeywordRecognitionAsync, hk]
        show OpInv (startKeywordRecognitionAsync s (some k)).1
        rw [hκ]
        exact h
      · have hκ : startKeywordRecognitionAsync s (some k) =
            startMode s .keywordSpotting (some k) := by
          simp [startKeywordRecognitionAsync, hk]
        show OpInv (startKeywordRecognitionAsync s (some k)).1
        rw [hκ]
        exact opinv_startMode h (by decide)
  | stopKeyword => exact opinv_stopMode h
  | enableAct =>
    show OpInv (enable s)
    rw [enable_eq]
    intro hop
    obtain ⟨sess, hsess, hact⟩ := h hop
    exact ⟨sess, hsess, hact⟩
  | disableAct =>
    show OpInv (disable s)
    cases hd : s.defaultSession with
    | none =>
      rw [disable_of_inactive (fun t ht => Option.noConfusion (hd ▸ ht))]
      intro hop
      obtain ⟨sess, hsess, hact⟩ := h hop
      exact ⟨sess, hsess, hact⟩
    | some sess =>
      by_cases hidle : sess.activeMode = .idle
      · have hall : ∀ t, s.defaultSession = some t → t.activeMode = .idle := by
          intro t ht
          rw [hd] at ht
          cases ht
          exact hidle
        rw [disable_of_inactive hall]
        intro hop
        obtain ⟨t, ht, hact⟩ := h hop
        exact ⟨t, ht, hact⟩
      · rw [disable_of_active hd hidle]
        intro habs
        dsimp at habs
        simp at habs
  | termAct =>
    show OpInv (term s)
    cases hd : s.defaultSession with
    | none => rw [term_of_none hd]; exact h
    | some sess =>
      rw [term_of_some hd]
      intro habs
      dsimp at habs
      cases ho : s.currentOp with
      | none => rw [ho] at habs; simp at habs
      | some op =>
        rw [ho] at habs
        cases op <;> simp at habs
  | setProp k v =>
    intro hop
    obtain ⟨sess, hsess, hact⟩ := h hop
    exact ⟨sess, hsess, hact⟩
  | engineSpeechStart =>
    show OpInv (engineEmit s Event.speechStartDetected)
    cases hd : s.defaultSession with
    | none => rw [engineEmit_of_none hd]; exact h
    | some sess =>
      by_cases hidle : sess.activeMode = .idle
      · rw [engineEmit_of_idle hd hidle]; exact h
      · rw [engineEmit_of_active hd hidle]
        intro _
        exact ⟨sess, hd, hidle⟩
  | engineSpeechEnd =>
    show OpInv (engineEmit s Event.speechEndDetected)
    cases hd : s.defaultSession with
    | none => rw [engineEmit_of_none hd]; exact h
    | some sess =>
      by_cases hidle : sess.activeMode = .idle
      · rw [engineEmit_of_idle hd hidle]; exact h
      · rw [engineEmit_of_active hd hidle]
        intro _
        exact ⟨sess, hd, hidle⟩
  | engineResult =>
    show OpInv (engineEmit s Event.resultEvent)
    cases hd : s.defaultSession with
    | none => rw [engineEmit_of_none hd]; exact h
    | some sess =>
      by_cases hidle : sess.activeMode = .idle
      · rw [engineEmit_of_idle hd hidle]; exact h
      · rw [engineEmit_of_active hd hidle]
        intro _
        exact ⟨sess, hd, hidle⟩
  | engineDone =>
    show OpInv (engineComplete s)
    cases hd : s.defaultSession with
    | none => rw [engineComplete_of_none hd]; exact h
    | some sess =>
      by_cases hm : sess.activeMode = .singleShot
      · rw [engineComplete_of_single hd hm]
        intro habs
        dsimp at habs
        simp at habs
      · rw [engineComplete_of_other hd hm]; exact h
  | engineError =>
    show OpInv (engineFail s)
    cases hd : s.defaultSession with
    | none => rw [engineFail_of_none hd]; exact h
    | some sess =>
      by_cases hidle : sess.activeMode = .idle
      · rw [engineFail_of_idle hd hidle]; exact h
      · rw [engineFail_of_active hd hidle]
        intro habs
        dsimp at habs
        simp at habs

theorem reachable_opinv {s : Recognizer} (hs : Reachable s) : OpInv s := by
  obtain ⟨acts, hacts⟩ := hs
  rw [← hacts]
  exact runActs_pres OpInv (fun t a ht => opinv_step ht a) acts initRecognizer opinv_init

theorem proj_append_ne {es : List Event} {e : Event} {k : Nat} (hne : e.sid ≠ k) :
    projectSid (es ++ [e]) k = projectSid es k := by
  rw [projectSid_append_event, if_neg hne, List.append_nil]

theorem dead_ensure {s : Recognizer} {k : Nat} (h : DeadId s k) :
    DeadId (ensureDefaultSession s) k := by
  obtain ⟨hlt, hne⟩ := h
  cases hd : s.defaultSession with
  | some sess => rw [ensure_of_some hd]; exact ⟨hlt, hne⟩
  | none =>
    rw [ensure_of_none hd]
    refine ⟨Nat.lt_succ_of_lt hlt, ?_⟩
    intro sess hsess
    dsimp at hsess ⊢
    cases hsess
    exact Nat.ne_of_gt hlt

theorem dead_startMode {s : Recognizer} {m : Mode} {kw : Option String} {k : Nat}
    (h : DeadId s k) :
    DeadId (startMode s m kw).1 k ∧
      projectSid (startMode s m kw).1.events k = projectSid s.events k := by
  by_cases hen : (ensureDefaultSession s).enabled = false
  · rw [startMode_disabled hen]
    exact ⟨dead_ensure h, by rw [ensure_events]⟩
  · have hen' : (ensureDefaultSession s).enabled = true := by
      cases hE : (ensureDefaultSession s).enabled
      · exact absurd hE hen
      · rfl
    obtain ⟨sess, hsess⟩ := ensure_session s
    by_cases hidle : sess.activeMode = .idle
    · rw [startMode_go hen' hsess hidle]
      have hDE := dead_ensure h
      have hne : sess.id ≠ k := hDE.2 sess hsess
      constructor
      · refine ⟨hDE.1, ?_⟩
        intro t ht
        dsimp at ht
        cases ht
        exact hne
      · dsimp
        rw [proj_append_ne (by rw [sid_sessionStarted]; exact hne), ensure_events]
    · rw [startMode_busy hen' hsess hidle]
      exact ⟨dead_ensure h, by rw [ensure_events]⟩

theorem dead_stopMode {s : Recognizer} {m : Mode} {k : Nat} (h : DeadId s k) :
    DeadId (stopMode s m).1 k ∧
      projectSid (stopMode s m).1.events k = projectSid s.events k := by
  cases hd : s.defaultSession with
  | none => rw [stopMode_none hd]; exact ⟨h, rfl⟩
  | some sess =>
    by_cases heq : sess.activeMode = m
    · rw [stopMode_go hd heq]
      have hne : sess.id ≠ k := h.2 sess hd
      constructor
      · refine ⟨h.1, ?_⟩
        intro t ht
        dsimp at ht
        cases ht
        exact hne
      · dsimp
        rw [proj_append_ne (by rw [sid_sessionStopped]; exact hne)]
    · rw [stopMode_noop hd heq]; exact ⟨h, rfl⟩

theorem dead_close_aux {s : Recognizer} {sess : Session} {k : Nat} {b : Bool}
    {c : OpStatus} (h : DeadId s k) (hd : s.defaultSession = some sess) :
    DeadId
      { s with
        enabled := b
        defaultSession := some { sess with activeMode := .idle, keyword := none }
        currentOp := some c
        events := s.events ++ [.sessionStopped sess.id] } k ∧
      projectSid (s.events ++ [Event.sessionStopped sess.id]) k =
        projectSid s.events k := by
  have hne : sess.id ≠ k := h.2 sess hd
  constructor
  · refine ⟨h.1, ?_⟩
    intro t ht
    dsimp at ht
    cases ht
    exact hne
  · rw [proj_append_ne (by rw [sid_sessionStopped]; exact hne)]

theorem dead_step {s : Recognizer} {k : Nat} (h : DeadId s k) (a : Action) :
    DeadId (step s a) k ∧ projectSid (step s a).events k = projectSid s.events k := by
  cases a with
  | recognize => exact dead_startMode h
  | startContinuous => exact dead_startMode h
  | stopContinuous => exact dead_stopMode h
  | startKeyword kw =>
    cases kw with
    | none => exact ⟨h, rfl⟩
    | some kwd =>
      by_cases hk : kwd = ""
      · have hκ : startKeywordRecognitionAsync s (some kwd) = (s, .failed .invalidArgument) := by
          simp [startKeywordRecognitionAsync, hk]
        show DeadId (startKeywordRecognitionAsync s (some kwd)).1 k ∧
          projectSid (startKeywordRecognitionAsync s (some kwd)).1.events k = projectSid s.events k
        rw [hκ]
        exact ⟨h, rfl⟩
      · have hκ : startKeywordRecognitionAsync s (some kwd) =
            startMode s .keywordSpotting (some kwd) := by
          simp [startKeywordRecognitionAsync, hk]
        show DeadId (startKeywordRecognitionAsync s (some kwd)).1 k ∧
          projectSid (startKeywordRecognitionAsync s (some kwd)).1.events k = projectSid s.events k
        rw [hκ]
        exact dead_startMode h
  | stopKeyword => exact dead_stopMode h
  | enableAct =>
    show DeadId (enable s) k ∧ projectSid (enable s).events k = projectSid s.events k
    rw [enable_eq]
    exact ⟨⟨h.1, h.2⟩, rfl⟩
  | disableAct =>
    show DeadId (disable s) k ∧ projectSid (disable s).events k = projectSid s.events k
    cases hd : s.defaultSession with
    | none =>
      rw [disable_of_inactive (fun t ht => Option.noConfusion (hd ▸ ht))]
      exact ⟨⟨h.1, h.2⟩, rfl⟩
    | some sess =>
      by_cases hidle : sess.activeMode = .idle
      · have hall : ∀ t, s.defaultSession = some t → t.activeMode = .idle := by
          intro t ht
          rw [hd] at ht
          cases ht
          exact hidle
        rw [disable_of_inactive hall]
        exact ⟨⟨h.1, h.2⟩, rfl⟩
      · rw [disable_of_active hd hidle]
        exact dead_close_aux h hd
  | termAct =>
    show DeadId (term s) k ∧ projectSid (term s).events k = projectSid s.events k
    cases hd : s.defaultSession with
    | none => rw [term_of_none hd]; exact ⟨h, rfl⟩
    | some sess =>
      rw [term_of_some hd]
      exact ⟨⟨h.1, fun t ht => Option.noConfusion ht⟩, rfl⟩
  | setProp p v => exact ⟨⟨h.1, h.2⟩, rfl⟩
  | engineSpeechStart =>
    show DeadId (engineEmit s Event.speechStartDetected) k ∧
      projectSid (engineEmit s Event.speechStartDetected).events k = projectSid s.events k
    cases hd : s.defaultSession with
    | none => rw [engineEmit_of_none hd]; exact ⟨h, rfl⟩
    | some sess =>
      by_cases hidle : sess.activeMode = .idle
      · rw [engineEmit_of_idle hd hidle]; exact ⟨h, rfl⟩
      · rw [engineEmit_of_active hd hidle]
        exact ⟨⟨h.1, fun t ht => h.2 t ht⟩, proj_append_ne (h.2 sess hd)⟩
  | engineSpeechEnd =>
    show DeadId (engineEmit s Event.speechEndDetected) k ∧
      projectSid (engineEmit s Event.speechEndDetected).events k = projectSid s.events k
    cases hd : s.defaultSession with
    | none => rw [engineEmit_of_none hd]; exact ⟨h, rfl⟩
    | some sess =>
      by_cases hidle : sess.activeMode = .idle
      · rw [engineEmit_of_idle hd hidle]; exact ⟨h, rfl⟩
      · rw [engineEmit_of_active hd hidle]
        exact ⟨⟨h.1, fun t ht => h.2 t ht⟩, proj_append_ne (h.2 sess hd)⟩
  | engineResult =>
    show DeadId (engineEmit s Event.resultEvent) k ∧
      projectSid (engineEmit s Event.resultEvent).events k = projectSid s.events k
    cases hd : s.defaultSession with
    | none => rw [engineEmit_of_none hd]; exact ⟨h, rfl⟩
    | some sess =>
      by_cases hidle : sess.activeMode = .idle
      · rw [engineEmit_of_idle hd hidle]; exact ⟨h, rfl⟩
      · rw [engineEmit_of_active hd hidle]
        exact ⟨⟨h.1, fun t ht => h.2 t ht⟩, proj_append_ne (h.2 sess hd)⟩
  | engineDone =>
    show DeadId (engineComplete s) k ∧
      projectSid (engineComplete s).events k = projectSid s.events k
    cases hd : s.defaultSession with
    | none => rw [engineComplete_of_none hd]; exact ⟨h, rfl⟩
    | some sess =>
      by_cases hm : sess.activeMode = .singleShot
      · rw [engineComplete_of_single hd hm]
        exact dead_close_aux h hd
      · rw [engineComplete_of_other hd hm]; exact ⟨h, rfl⟩
  | engineError =>
    show DeadId (engineFail s) k ∧
      projectSid (engineFail s).events k = projectSid s.events k
    cases hd : s.defaultSession with
    | none => rw [engineFail_of_none hd]; exact ⟨h, rfl⟩
    | some sess =>
      by_cases hidle : sess.activeMode = .idle
      · rw [engineFail_of_idle hd hidle]; exact ⟨h, rfl⟩
      · rw [engineFail_of_active hd hidle]
        exact dead_close_aux h hd

theorem dead_run {k : Nat} :
    ∀ (acts : List Action) (s : Recognizer), DeadId s k →
      DeadId (runActs s acts) k ∧
        projectSid (runActs s acts).events k = projectSid s.events k := by
  intro acts
  induction acts with
  | nil => intro s h; exact ⟨h, rfl⟩
  | cons a rest ih =>
    intro s h
    obtain ⟨h1, h2⟩ := dead_step h a
    obtain ⟨h3, h4⟩ := ih (step s a) h1
    exact ⟨h3, h4.trans h2⟩

theorem enable_enabled (s : Recognizer) : (enable s).enabled = true := by
  rw [enable_eq]

theorem disable_cases (s : Recognizer) :
    ((∀ t, s.defaultSession = some t → t.activeMode = .idle) ∧
      disable s = { s with enabled := false }) ∨
    ∃ sess, s.defaultSession = some sess ∧ sess.activeMode ≠ .idle ∧
      disable s =
        { s with
          enabled := false
          defaultSession := some { sess with activeMode := .idle, keyword := none }
          currentOp := some .cancelled
          events := s.events ++ [.sessionStopped sess.id] } := by
  rcases Option.eq_none_or_eq_some s.defaultSession with hd | ⟨sess, hd⟩
  · have hall : ∀ t, s.defaultSession = some t → t.activeMode = .idle := by
      intro t ht
      rw [hd] at ht
      cases ht
    exact Or.inl ⟨hall, disable_of_inactive hall⟩
  · by_cases hidle : sess.activeMode = .idle
    · have hall : ∀ t, s.defaultSession = some t → t.activeMode = .idle := by
        intro t ht
        rw [hd] at ht
        cases ht
        exact hidle
      exact Or.inl ⟨hall, disable_of_inactive hall⟩
    · exact Or.inr ⟨sess, hd, hidle, disable_of_active hd hidle⟩

theorem disable_enabled (s : Recognizer) : (disable s).enabled = false := by
  rcases disable_cases s with ⟨_, h⟩ | ⟨sess, _, _, h⟩ <;> rw [h]

theorem disable_localProps (s : Recognizer) : (disable s).localProps = s.localProps := by
  rcases disable_cases s with ⟨_, h⟩ | ⟨sess, _, _, h⟩ <;> rw [h]

theorem disable_nextId (s : Recognizer) : (disable s).nextId = s.nextId := by
  rcases disable_cases s with ⟨_, h⟩ | ⟨sess, _, _, h⟩ <;> rw [h]

theorem disable_session_isSome (s : Recognizer) :
    (disable s).defaultSession.isSome = s.defaultSession.isSome := by
  rcases disable_cases s with ⟨_, h⟩ | ⟨sess, hsess, _, h⟩
  · rw [h]
  · rw [h, hsess]
    rfl

theorem disable_session_id (s : Recognizer) :
    (disable s).defaultSession.map Session.id = s.defaultSession.map Session.id := by
  rcases disable_cases s with ⟨_, h⟩ | ⟨sess, hsess, _, h⟩
  · rw [h]
  · rw [h, hsess]
    rfl

theorem disable_session_idle (s : Recognizer) :
    ∀ u, (disable s).defaultSession = some u → u.activeMode = .idle := by
  intro u hu
  rcases disable_cases s with ⟨hall, h⟩ | ⟨sess, hsess, _, h⟩
  · rw [h] at hu
    exact hall u hu
  · rw [h] at hu
    dsimp at hu
    cases hu
    rfl

theorem enable_idem (s : Recognizer) : enable (enable s) = enable s := by
  rw [enable_eq, enable_eq]

theorem disable_fixed {t : Recognizer} (ht : t.enabled = false)
    (hall : ∀ u, t.defaultSession = some u → u.activeMode = .idle) :
    disable t = t := by
  rw [disable_of_inactive hall]
  cases t
  dsimp at ht
  subst ht
  rfl

theorem disable_idem (s : Recognizer) : disable (disable s) = disable s := by
  apply disable_fixed (disable_enabled s)
  exact disable_session_idle s

theorem applyED_enabled :
    ∀ (calls : List Bool) (s : Recognizer),
      (applyED s calls).enabled = calls.getLast?.getD s.enabled := by
  intro calls
  induction calls with
  | nil => intro s; rfl
  | cons b rest ih =>
    intro s
    have hstep : applyED s (b :: rest) =
        applyED (if b then enable s else disable s) rest := rfl
    rw [hstep, ih]
    cases rest with
    | nil =>
      cases b
      · simp [disable_enabled]
      · simp [enable_enabled]
    | cons c t =>
      rw [List.getLast?_cons_cons]
      rcases hx : (c :: t).getLast? with _ | x
      · rw [List.getLast?_eq_none_iff] at hx
        cases hx
      · rfl

theorem async_terminal_no_step {T : Type} {s u : AsyncState T}
    (hterm : s.isTerminal = true) (hstep : AsyncStep s u) : False := by
  cases hstep <;> simp [AsyncState.isTerminal] at hterm

/-- Claim C1: while a single-shot, continuous or keyword run is active on
the default session, a new RecognizeAsync, StartContinuousRecognitionAsync
or StartKeywordRecognitionAsync call fails with OperationInProgress, the
state is unchanged, and the already-active operation stays Running. -/
theorem recognizer_C1 (s : Recognizer) (sess : Session) (kw : String)
    (hs : Reachable s) (hsess : s.defaultSession = some sess)
    (hactive : sess.activeMode ≠ .idle) (hkw : kw ≠ "") :
    recognizeAsync s = (s, .failed .operationInProgress) ∧
    startContinuousRecognitionAsync s = (s, .failed .operationInProgress) ∧
    startKeywordRecognitionAsync s (some kw) = (s, .failed .operationInProgress) ∧
    s.currentOp = some OpStatus.running := by
  obtain ⟨h1, h2, h3, h4, h5, h6⟩ := reachable_ginv hs
  have hen : s.enabled = true := by
    cases hE : s.enabled
    · exact absurd (h3 hE sess hsess) hactive
    · rfl
  have hens : ensureDefaultSession s = s := ensure_of_some hsess
  have hen' : (ensureDefaultSession s).enabled = true := by rw [hens]; exact hen
  have hsess' : (ensureDefaultSession s).defaultSession = some sess := by
    rw [hens]; exact hsess
  refine ⟨?_, ?_, ?_, h4 sess hsess hactive⟩
  · unfold recognizeAsync
    rw [startMode_busy hen' hsess' hactive, hens]
  · unfold startContinuousRecognitionAsync
    rw [startMode_busy hen' hsess' hactive, hens]
  · have hred : startKeywordRecognitionAsync s (some kw) =
        startMode s .keywordSpotting (some kw) := by
      simp [startKeywordRecognitionAsync, hkw]
    rw [hred, startMode_busy hen' hsess' hactive, hens]

/-- Witness for C1 at the state reached by one successful RecognizeAsync. -/
theorem recognizer_C1_witness :
    recognizeAsync (runActs initRecognizer [Action.recognize]) =
      (runActs initRecognizer [Action.recognize], .failed .operationInProgress) ∧
    startContinuousRecognitionAsync (runActs initRecognizer [Action.recognize]) =
      (runActs initRecognizer [Action.recognize], .failed .operationInProgress) ∧
    startKeywordRecognitionAsync (runActs initRecognizer [Action.recognize]) (some "hey") =
      (runActs initRecognizer [Action.recognize], .failed .operationInProgress) ∧
    (runActs initRecognizer [Action.recognize]).currentOp = some OpStatus.running :=
  recognizer_C1 (runActs initRecognizer [Action.recognize])
    { id := 0, activeMode := .singleShot, keyword := none } "hey"
    ⟨[Action.recognize], rfl⟩ (by decide) (by decide) (by decide)

/-- Claim C2: RecognizeAsync on a disabled coordinator fails immediately
with NotEnabled and starts no engine work (no new events, the tracked
operation unchanged, only the lazy session creation happens); on an enabled
coordinator with no active run it schedules one single-shot recognition and
returns a Running handle. -/
theorem recognizer_C2 (s : Recognizer) :
    (s.enabled = false →
      recognizeAsync s = (ensureDefaultSession s, .failed .notEnabled) ∧
      (recognizeAsync s).1.events = s.events ∧
      (recognizeAsync s).1.currentOp = s.currentOp) ∧
    (s.enabled = true →
      (∀ sess, s.defaultSession = some sess → sess.activeMode = .idle) →
      (recognizeAsync s).2 = .running ∧
      (recognizeAsync s).1.currentOp = some .running ∧
      (recognizeAsync s).1.defaultSession.map Session.activeMode = some .singleShot) := by
  constructor
  · intro hdis
    have hen : (ensureDefaultSession s).enabled = false := by
      rw [ensure_enabled]; exact hdis
    have heq : recognizeAsync s = (ensureDefaultSession s, .failed .notEnabled) := by
      unfold recognizeAsync
      exact startMode_disabled hen
    refine ⟨heq, ?_, ?_⟩
    · rw [heq, ensure_events]
    · rw [heq, ensure_currentOp]
  · intro hen hall
    obtain ⟨sess, hsess⟩ := ensure_session s
    have hidle : sess.activeMode = .idle := by
      rcases Option.eq_none_or_eq_some s.defaultSession with hd | ⟨t, hd⟩
      · rw [ensure_of_none hd] at hsess
        dsimp at hsess
        cases hsess
        rfl
      · rw [ensure_of_some hd, hd] at hsess
        cases hsess
        exact hall sess hd
    have hen' : (ensureDefaultSession s).enabled = true := by
      rw [ensure_enabled]; exact hen
    have heq : startMode s .singleShot none =
        ({ ensureDefaultSession s with
           defaultSession := some { sess with activeMode := .singleShot, keyword := none }
           currentOp := some .running
           events := (ensureDefaultSession s).events ++ [.sessionStarted sess.id] },
         .running) := startMode_go hen' hsess hidle
    unfold recognizeAsync
    rw [heq]
    exact ⟨rfl, rfl, rfl⟩

/-- Witness for C2: the disabled branch on a freshly disabled coordinator,
and the enabled branch on a fresh coordinator. -/
theorem recognizer_C2_witness :
    (recognizeAsync (disable initRecognizer) =
      (ensureDefaultSession (disable initRecognizer), .failed .notEnabled) ∧
      (recognizeAsync (disable initRecognizer)).1.events = (disable initRecognizer).events ∧
      (recognizeAsync (disable initRecognizer)).1.currentOp = (disable initRecognizer).currentOp) ∧
    ((recognizeAsync initRecognizer).2 = .running ∧
      (recognizeAsync initRecognizer).1.currentOp = some .running ∧
      (recognizeAsync initRecognizer).1.defaultSession.map Session.activeMode =
        some .singleShot) :=
  ⟨(recognizer_C2 (disable initRecognizer)).1 (by decide),
   (recognizer_C2 initRecognizer).2 rfl (fun _ h => nomatch h)⟩

/-- Claim C3: an AsyncOperation reaches the terminal states Completed,
Failed and Cancelled from Pending and from Running, and a terminal state,
once set, never changes: anything reachable from a terminal state is that
state itself, because no transition leaves a terminal state. -/
theorem recognizer_C3 (T : Type) (s u : AsyncState T)
    (hterm : s.isTerminal = true)
    (hsteps : Relation.ReflTransGen AsyncStep s u) :
    u = s ∧
    (∀ v : T, Relation.ReflTransGen AsyncStep (.pending : AsyncState T) (.completed v)) ∧
    (∀ e : ErrorKind, Relation.ReflTransGen AsyncStep (.pending : AsyncState T) (.failed e)) ∧
    Relation.ReflTransGen AsyncStep (.pending : AsyncState T) .cancelled ∧
    (∀ v : T, Relation.ReflTransGen AsyncStep (.running : AsyncState T) (.completed v)) ∧
    (∀ e : ErrorKind, Relation.ReflTransGen AsyncStep (.running : AsyncState T) (.failed e)) ∧
    Relation.ReflTransGen AsyncStep (.running : AsyncState T) .cancelled ∧
    (∀ t w : AsyncState T, t.isTerminal = true → ¬ AsyncStep t w) := by
  refine ⟨?_, ?_, ?_, ?_, ?_, ?_, ?_, ?_⟩
  · rcases Relation.ReflTransGen.cases_head hsteps with h | ⟨c, hc, _⟩
    · exact h.symm
    · exact absurd hc (fun hstep => async_terminal_no_step hterm hstep)
  · exact fun v => Relation.ReflTransGen.head .start (Relation.ReflTransGen.single (.complete v))
  · exact fun e => Relation.ReflTransGen.head .start (Relation.ReflTransGen.single (.fail e))
  · exact Relation.ReflTransGen.single .cancelPending
  · exact fun v => Relation.ReflTransGen.single (.complete v)
  · exact fun e => Relation.ReflTransGen.single (.fail e)
  · exact Relation.ReflTransGen.single .cancelRunning
  · exact fun t w hterm2 hstep => async_terminal_no_step hterm2 hstep

/-- Witness for C3 at the Cancelled terminal state of a unit-valued
operation. -/
theorem recognizer_C3_witness :
    (AsyncState.cancelled : AsyncState Unit) = .cancelled ∧
    (∀ v : Unit, Relation.ReflTransGen AsyncStep (.pending : AsyncState Unit) (.completed v)) ∧
    (∀ e : ErrorKind, Relation.ReflTransGen AsyncStep (.pending : AsyncState Unit) (.failed e)) ∧
    Relation.ReflTransGen AsyncStep (.pending : AsyncState Unit) .cancelled ∧
    (∀ v : Unit, Relation.ReflTransGen AsyncStep (.running : AsyncState Unit) (.completed v)) ∧
    (∀ e : ErrorKind, Relation.ReflTransGen AsyncStep (.running : AsyncState Unit) (.failed e)) ∧
    Relation.ReflTransGen AsyncStep (.running : AsyncState Unit) .cancelled ∧
    (∀ t w : AsyncState Unit, t.isTerminal = true → ¬ AsyncStep t w) :=
  recognizer_C3 Unit .cancelled .cancelled rfl .refl

/-- Claim C4: along every execution of the coordinator, the events fired
for any single session id form a causally ordered trace: runs open with
SessionStarted, speech/result events occur only inside a run, and
SessionStopped closes the run (the per-session projection is accepted by
the causal-order automaton). -/
theorem recognizer_C4 (acts : List Action) (k : Nat) :
    traceOK (projectSid (runActs initRecognizer acts).events k) = true := by
  have h := reachable_ginv ⟨acts, rfl⟩
  exact h.2.2.2.2.1 k

/-- Claim C5: IsEnabled reflects the most recent Enable/Disable call,
defaulting to true when none was made, and repeated Enable after Enable or
Disable after Disable is a no-op with no observable change. -/
theorem recognizer_C5 (s : Recognizer) (calls : List Bool) :
    initRecognizer.enabled = true ∧
    (applyED s calls).enabled = calls.getLast?.getD s.enabled ∧
    (applyED initRecognizer calls).enabled = calls.getLast?.getD true ∧
    enable (enable s) = enable s ∧
    disable (disable s) = disable s :=
  ⟨rfl, applyED_enabled calls s, applyED_enabled calls initRecognizer,
    enable_idem s, disable_idem s⟩

/-- Claim C6: SetStringValue writes only to the local property layer (all
other coordinator state is untouched and the parent is never written), a
subsequent GetStringValue of the same key returns the new value even when
the parent also binds the key, and a key never set locally is answered by
the parent, or by the default when no parent is linked. -/
theorem recognizer_C6 (s : Recognizer) (parent : String → Option String)
    (k v : String) :
    (setStringValue s k v).localProps = (k, v) :: s.localProps ∧
    (setStringValue s k v).enabled = s.enabled ∧
    (setStringValue s k v).defaultSession = s.defaultSession ∧
    (setStringValue s k v).currentOp = s.currentOp ∧
    (setStringValue s k v).events = s.events ∧
    getStringValue (setStringValue s k v) parent k = some v ∧
    (lookupProp s.localProps k = none → getStringValue s parent k = parent k) ∧
    (lookupProp s.localProps k = none →
      getStringValue s (fun _ => none) k = none) := by
  refine ⟨rfl, rfl, rfl, rfl, rfl, ?_, ?_, ?_⟩
  · simp [getStringValue, setStringValue, lookupProp]
  · intro h
    simp [getStringValue, h]
  · intro h
    simp [getStringValue, h]

/-- Witness for C6: a local write shadows a parent binding of the same key,
and an unset key falls through to the parent. -/
theorem recognizer_C6_witness :
    getStringValue (setStringValue initRecognizer "k" "v")
      (fun x => if x = "k" then some "pv" else none) "k" = some "v" ∧
    getStringValue initRecognizer
      (fun x => if x = "k" then some "pv" else none) "k" =
      (fun x => if x = "k" then some "pv" else none) "k" ∧
    getStringValue initRecognizer (fun _ => none) "k" = none := by
  have h := recognizer_C6 initRecognizer
    (fun x => if x = "k" then some "pv" else none) "k" "v"
  exact ⟨h.2.2.2.2.2.1, h.2.2.2.2.2.2.1 rfl,
    (recognizer_C6 initRecognizer (fun _ => none) "k" "v").2.2.2.2.2.2.2 rfl⟩

/-- Claim C7: Term is idempotent, releases the default session, fires no
event itself, forces a Running operation to the Cancelled terminal state,
and after Term no later action ever fires another event for the released
session's id. -/
theorem recognizer_C7 (s : Recognizer) (hs : Reachable s) :
    term (term s) = term s ∧
    (term s).defaultSession = none ∧
    (term s).events = s.events ∧
    (s.currentOp = some .running → (term s).currentOp = some .cancelled) ∧
    (∀ sess, s.defaultSession = some sess → ∀ acts,
      projectSid (runActs (term s) acts).events sess.id =
        projectSid s.events sess.id) := by
  refine ⟨term_idem s, term_defaultSession s, term_events s, ?_, ?_⟩
  · intro hop
    obtain ⟨sess, hsess, _⟩ := reachable_opinv hs hop
    rw [term_of_some hsess]
    dsimp
    rw [hop]
  · intro sess hsess acts
    have hG := reachable_ginv hs
    have hdead : DeadId (term s) sess.id := by
      refine ⟨?_, ?_⟩
      · rw [term_nextId]
        exact hG.1 sess hsess
      · intro t ht
        rw [term_defaultSession] at ht
        cases ht
    rw [(dead_run acts (term s) hdead).2, term_events]

/-- Witness for C7 at the state with one Running single-shot operation;
after Term, replaying a recognition fires events only for the new session
id, never for the released id 0. -/
theorem recognizer_C7_witness :
    term (term (runActs initRecognizer [Action.recognize])) =
      term (runActs initRecognizer [Action.recognize]) ∧
    (term (runActs initRecognizer [Action.recognize])).defaultSession = none ∧
    (term (runActs initRecognizer [Action.recognize])).currentOp = some .cancelled ∧
    projectSid
      (runActs (term (runActs initRecognizer [Action.recognize]))
        [Action.recognize]).events 0 =
      projectSid (runActs initRecognizer [Action.recognize]).events 0 := by
  have h := recognizer_C7 (runActs initRecognizer [Action.recognize])
    ⟨[Action.recognize], rfl⟩
  exact ⟨h.1, h.2.1, h.2.2.2.1 (by decide),
    h.2.2.2.2 { id := 0, activeMode := .singleShot, keyword := none } (by decide)
      [Action.recognize]⟩

/-- Claim C8: StartKeywordRecognitionAsync with a null or empty keyword
fails with InvalidArgument and leaves the coordinator completely unchanged:
no session side effect and no SessionStarted event. -/
theorem recognizer_C8 (s : Recognizer) :
    startKeywordRecognitionAsync s none = (s, .failed .invalidArgument) ∧
    startKeywordRecognitionAsync s (some "") = (s, .failed .invalidArgument) := by
  exact ⟨rfl, by simp [startKeywordRecognitionAsync]⟩

/-- Claim C9: StopContinuousRecognitionAsync on an Idle (or absent) default
session completes successfully and immediately, changing nothing. -/
theorem recognizer_C9 (s : Recognizer)
    (hidle : ∀ sess, s.defaultSession = some sess → sess.activeMode = .idle) :
    stopContinuousRecognitionAsync s = (s, .completed) := by
  unfold stopContinuousRecognitionAsync
  rcases Option.eq_none_or_eq_some s.defaultSession with hd | ⟨sess, hd⟩
  · exact stopMode_none hd
  · exact stopMode_noop hd (by rw [hidle sess hd]; decide)

/-- Witness for C9 on a fresh coordinator (Idle session state). -/
theorem recognizer_C9_witness :
    stopContinuousRecognitionAsync initRecognizer = (initRecognizer, .completed) :=
  recognizer_C9 initRecognizer (fun _ h => nomatch h)

/-- Claim C10: Enable and Disable mutate only the enabled flag and notify
the default session through OnIsEnabledChanged; they never create, destroy
or replace the default session (presence, identity and the fresh-id counter
are preserved) and never touch the property store. -/
theorem recognizer_C10 (s : Recognizer) :
    enable s = onIsEnabledChanged { s with enabled := true } ∧
    disable s = onIsEnabledChanged { s with enabled := false } ∧
    (enable s).enabled = true ∧
    (disable s).enabled = false ∧
    (enable s).localProps = s.localProps ∧
    (disable s).localProps = s.localProps ∧
    (enable s).defaultSession.isSome = s.defaultSession.isSome ∧
    (disable s).defaultSession.isSome = s.defaultSession.isSome ∧
    (enable s).defaultSession.map Session.id = s.defaultSession.map Session.id ∧
    (disable s).defaultSession.map Session.id = s.defaultSession.map Session.id ∧
    (enable s).nextId = s.nextId ∧
    (disable s).nextId = s.nextId := by
  refine ⟨rfl, rfl, enable_enabled s, disable_enabled s, ?_, disable_localProps s,
    ?_, disable_session_isSome s, ?_, disable_session_id s, ?_, disable_nextId s⟩
  · rw [enable_eq]
  · rw [enable_eq]
  · rw [enable_eq]
  · rw [enable_eq]

end SpeechSDK
